import Mathlib

/-!
Verification of the budget-tracker ledger engine (src/script.js).

Strings handled by the money-parsing layer are modelled as `List Char`
(the character sequence of the JavaScript string).  JavaScript numbers
reachable from `amountToFils` are integers or NaN; they are modelled as
`Option Int` with `none` playing the role of NaN.  JavaScript objects used
as per-currency total maps are modelled as insertion-ordered association
lists `List (String × Int)`.
-/

namespace BudgetTracker

/-- Numeric value of a list of decimal digit characters, most significant
first, as computed by JavaScript number parsing on digit-only strings. -/
def digitsToNat (s : List Char) : Nat :=
  s.foldl (fun acc c => acc * 10 + (c.toNat - 48)) 0

/-- Character for a single decimal digit. -/
def digitChar (n : Nat) : Char := Char.ofNat (48 + n)

/-- Fuel-indexed digit printer; the fuel only forces structural recursion
and is always sufficient at the call site in `natDigits`. -/
def natDigitsAux : Nat → Nat → List Char
  | 0, _ => []
  | fuel + 1, n =>
    if n < 10 then [digitChar n]
    else natDigitsAux fuel (n / 10) ++ [digitChar (n % 10)]

/-- Decimal digit characters of a natural number, most significant first,
as produced by JavaScript `String(n)` for a non-negative integer. -/
def natDigits (n : Nat) : List Char := natDigitsAux (n + 1) n

/-- JavaScript `Number(s)` on the fragment reachable from `amountToFils`
(src/script.js line 51): the empty string is 0, an optional sign followed
by decimal digits is the signed value, and everything else in that
fragment (a bare sign, or any non-digit character) is NaN, modelled as
`none`.  Whitespace, exponent and hex forms never reach `Number` from the
call sites modelled here and are mapped to `none`. -/
def jsNumber : List Char → Option Int
  | [] => some 0
  | c :: rest =>
    if c = '-' then
      if rest ≠ [] ∧ rest.all (·.isDigit) then some (-(digitsToNat rest : Int)) else none
    else if c = '+' then
      if rest ≠ [] ∧ rest.all (·.isDigit) then some ((digitsToNat rest : Int)) else none
    else
      if (c :: rest).all (·.isDigit) then some ((digitsToNat (c :: rest) : Int)) else none

/-- JavaScript `str.split(".")`: the maximal dot-free segments of the
string, with empty segments kept (so the result is never empty). -/
def splitOnDot : List Char → List (List Char)
  | [] => [[]]
  | c :: rest =>
    if c = '.' then [] :: splitOnDot rest
    else
      match splitOnDot rest with
      | [] => [[c]]
      | p :: ps => (c :: p) :: ps

/-- Model of `amountToFils` (src/script.js lines 46-53): split on ".",
take the first two segments (the integer part, and the decimal part
defaulting to empty), right-pad the decimal part with zeros and keep three
digits, and compute `Number(intPart) * 1000 + Number(paddedDec)`.
The result is `none` exactly when the JavaScript computation is NaN. -/
def amountToFils (amount : List Char) : Option Int :=
  let parts := splitOnDot amount
  let intPart := parts.headD []
  let decPart := (parts.drop 1).headD []
  let paddedDec := (decPart ++ ['0', '0', '0']).take 3
  match jsNumber intPart, jsNumber paddedDec with
  | some i, some d => some (i * 1000 + d)
  | _, _ => none

/-- JavaScript `String(n).padStart(3, "0")` applied to a digit string. -/
def padStart3 (s : List Char) : List Char :=
  List.replicate (3 - s.length) '0' ++ s

/-- Model of `filsToAmountString` (src/script.js lines 56-62): sign of the
input, then `Math.floor(|n| / 1000)`, a dot, and `|n| % 1000` left-padded
to three digits. -/
def filsToAmountString (filsInt : Int) : List Char :=
  let v := filsInt.natAbs
  let intPart := natDigits (v / 1000)
  let decPart := padStart3 (natDigits (v % 1000))
  (if filsInt < 0 then ['-'] else []) ++ intPart ++ ['.'] ++ decPart

/-- Valid decimal numeral in the sense of the specification (section 4.1):
an optional minus sign, a nonempty run of digits, and optionally a dot
followed by a nonempty run of digits.  This definition follows the
specification words, for comparison against `amountToFils`. -/
def specValidDecimal (s : List Char) : Bool :=
  let t := match s with
    | '-' :: r => r
    | _ => s
  match splitOnDot t with
  | [a] => !a.isEmpty && a.all (·.isDigit)
  | [a, b] => !a.isEmpty && a.all (·.isDigit) && !b.isEmpty && b.all (·.isDigit)
  | _ => false

/-- Income entry as stored in `monthData.income` (src/script.js lines
310-316), with the amount already in integer fils. -/
structure IncomeEntry where
  date : String
  source : String
  amountFils : Int
  currency : String
  notes : String
deriving DecidableEq

/-- Expense entry as stored in `monthData.expenses` (src/script.js lines
345-352). -/
structure ExpenseEntry where
  date : String
  category : String
  amountFils : Int
  currency : String
  method : String
  notes : String
deriving DecidableEq

/-- Lending/borrowing entry as stored in `monthData.lending`
(src/script.js lines 386-394). -/
structure LendingEntry where
  date : String
  name : String
  amountFils : Int
  currency : String
  reason : String
  type : String
  status : String
deriving DecidableEq

/-- Per-month ledger state (`monthData`), as produced by `loadMonthData`
and mutated by the handlers (src/script.js lines 27-39). -/
structure MonthData where
  income : List IncomeEntry
  expenses : List ExpenseEntry
  lending : List LendingEntry
  wallet : Int
  savings : Int
deriving DecidableEq

/-- Fresh month state returned by `loadMonthData` when nothing is stored
(src/script.js lines 29-37). -/
def emptyMonthData : MonthData :=
  { income := [], expenses := [], lending := [], wallet := 0, savings := 0 }

/-- Income form submission (src/script.js lines 297-328): push the entry
and, if its currency is KWD, add the amount to the wallet. -/
def incomeFormSubmit (d : MonthData) (e : IncomeEntry) : MonthData :=
  let d1 := { d with income := d.income ++ [e] }
  if e.currency = "KWD" then { d1 with wallet := d1.wallet + e.amountFils } else d1

/-- Expense form submission (src/script.js lines 331-368): push the entry
and, if its currency is KWD, deduct from wallet (method "wallet") or from
savings (method "bank"). -/
def expenseFormSubmit (d : MonthData) (e : ExpenseEntry) : MonthData :=
  let d1 := { d with expenses := d.expenses ++ [e] }
  if e.currency = "KWD" then
    if e.method = "wallet" then { d1 with wallet := d1.wallet - e.amountFils }
    else if e.method = "bank" then { d1 with savings := d1.savings - e.amountFils }
    else d1
  else d1

/-- Lending form submission (src/script.js lines 371-401): push the entry,
with no balance change. -/
def lbFormSubmit (d : MonthData) (e : LendingEntry) : MonthData :=
  { d with lending := d.lending ++ [e] }

/-- Revert block of `handleEdit`/`handleDelete` for an income entry
(src/script.js lines 451-452 and 507-508). -/
def revertIncomeImpact (d : MonthData) (entry : IncomeEntry) : MonthData :=
  if entry.currency = "KWD" then { d with wallet := d.wallet - entry.amountFils } else d

/-- Apply block of `handleEdit` for an income entry (src/script.js lines
485-486). -/
def applyIncomeImpact (d : MonthData) (entry : IncomeEntry) : MonthData :=
  if entry.currency = "KWD" then { d with wallet := d.wallet + entry.amountFils } else d

/-- Revert block of `handleEdit`/`handleDelete` for an expense entry
(src/script.js lines 453-456 and 509-512). -/
def revertExpenseImpact (d : MonthData) (entry : ExpenseEntry) : MonthData :=
  if entry.currency = "KWD" then
    if entry.method = "wallet" then { d with wallet := d.wallet + entry.amountFils }
    else if entry.method = "bank" then { d with savings := d.savings + entry.amountFils }
    else d
  else d

/-- Apply block of `handleEdit` for an expense entry (src/script.js lines
487-490). -/
def applyExpenseImpact (d : MonthData) (entry : ExpenseEntry) : MonthData :=
  if entry.currency = "KWD" then
    if entry.method = "wallet" then { d with wallet := d.wallet - entry.amountFils }
    else if entry.method = "bank" then { d with savings := d.savings - entry.amountFils }
    else d
  else d

/-- Edit of an income entry, `handleEdit("income", index)` (src/script.js
lines 405-494) with the prompted replacement field values passed in
directly: missing entry is a no-op; otherwise revert the old balance
impact, overwrite the fields, and apply the new impact. -/
def handleEditIncome (d : MonthData) (index : Nat) (newDate newSource : String)
    (newAmountFils : Int) (newCurrency newNotes : String) : MonthData :=
  match d.income[index]? with
  | none => d
  | some entry =>
    let d1 := revertIncomeImpact d entry
    let newEntry : IncomeEntry :=
      { date := newDate, source := newSource, amountFils := newAmountFils,
        currency := newCurrency, notes := newNotes }
    let d2 := { d1 with income := d1.income.set index newEntry }
    applyIncomeImpact d2 newEntry

/-- Edit of an expense entry, `handleEdit("expense", index)` (src/script.js
lines 405-494). -/
def handleEditExpense (d : MonthData) (index : Nat) (newDate newCategory : String)
    (newAmountFils : Int) (newCurrency newNotes newMethod : String) : MonthData :=
  match d.expenses[index]? with
  | none => d
  | some entry =>
    let d1 := revertExpenseImpact d entry
    let newEntry : ExpenseEntry :=
      { date := newDate, category := newCategory, amountFils := newAmountFils,
        currency := newCurrency, method := newMethod, notes := newNotes }
    let d2 := { d1 with expenses := d1.expenses.set index newEntry }
    applyExpenseImpact d2 newEntry

/-- Edit of a lending entry, `handleEdit("lending", index)` (src/script.js
lines 405-494): fields are overwritten and no balance is touched. -/
def handleEditLending (d : MonthData) (index : Nat) (newDate newName : String)
    (newAmountFils : Int) (newCurrency newReason newType newStatus : String) : MonthData :=
  match d.lending[index]? with
  | none => d
  | some _ =>
    let newEntry : LendingEntry :=
      { date := newDate, name := newName, amountFils := newAmountFils,
        currency := newCurrency, reason := newReason, type := newType, status := newStatus }
    { d with lending := d.lending.set index newEntry }

/-- Delete of an income entry, `handleDelete("income", index)`
(src/script.js lines 496-520): missing entry is a no-op; otherwise revert
the balance impact and splice the entry out. -/
def handleDeleteIncome (d : MonthData) (index : Nat) : MonthData :=
  match d.income[index]? with
  | none => d
  | some entry =>
    let d1 := revertIncomeImpact d entry
    { d1 with income := d1.income.eraseIdx index }

/-- Delete of an expense entry, `handleDelete("expense", index)`
(src/script.js lines 496-520). -/
def handleDeleteExpense (d : MonthData) (index : Nat) : MonthData :=
  match d.expenses[index]? with
  | none => d
  | some entry =>
    let d1 := revertExpenseImpact d entry
    { d1 with expenses := d1.expenses.eraseIdx index }

/-- Delete of a lending entry, `handleDelete("lending", index)`
(src/script.js lines 496-520): no balance revert. -/
def handleDeleteLending (d : MonthData) (index : Nat) : MonthData :=
  match d.lending[index]? with
  | none => d
  | some _ => { d with lending := d.lending.eraseIdx index }

/-- Wallet-to-savings transfer, the `walletToSavingsBtn` click handler
(src/script.js lines 539-555) with the prompted amount already in fils:
`none` models the rejected path (alert and early return, no state change);
`some` carries the updated state. -/
def walletToSavingsClick (d : MonthData) (amountFils : Int) : Option MonthData :=
  if amountFils ≤ 0 ∨ amountFils > d.wallet then none
  else some { d with wallet := d.wallet - amountFils, savings := d.savings + amountFils }

/-- Direct savings credit, the `incomeToSavingsBtn` click handler
(src/script.js lines 557-573): rejected when the amount is not positive,
otherwise savings is incremented and the wallet is untouched. -/
def incomeToSavingsClick (d : MonthData) (amountFils : Int) : Option MonthData :=
  if amountFils ≤ 0 then none
  else some { d with savings := d.savings + amountFils }

/-- User-level mutation of a month ledger: one constructor per handler in
src/script.js that can change `monthData`. -/
inductive Op where
  | addIncome (e : IncomeEntry)
  | addExpense (e : ExpenseEntry)
  | addLending (e : LendingEntry)
  | editIncome (index : Nat) (date source : String) (amountFils : Int) (currency notes : String)
  | editExpense (index : Nat) (date category : String) (amountFils : Int)
      (currency notes method : String)
  | editLending (index : Nat) (date name : String) (amountFils : Int)
      (currency reason ty status : String)
  | deleteIncome (index : Nat)
  | deleteExpense (index : Nat)
  | deleteLending (index : Nat)
  | transferWalletToSavings (amountFils : Int)
  | creditSavingsDirectly (amountFils : Int)
deriving DecidableEq

/-- Effect of one user operation on the month state; rejected transfers
leave the state unchanged, as in the handlers. -/
def applyOp (d : MonthData) : Op → MonthData
  | .addIncome e => incomeFormSubmit d e
  | .addExpense e => expenseFormSubmit d e
  | .addLending e => lbFormSubmit d e
  | .editIncome i dt s a c n => handleEditIncome d i dt s a c n
  | .editExpense i dt cat a c n m => handleEditExpense d i dt cat a c n m
  | .editLending i dt nm a c r ty st => handleEditLending d i dt nm a c r ty st
  | .deleteIncome i => handleDeleteIncome d i
  | .deleteExpense i => handleDeleteExpense d i
  | .deleteLending i => handleDeleteLending d i
  | .transferWalletToSavings a => (walletToSavingsClick d a).getD d
  | .creditSavingsDirectly a => (incomeToSavingsClick d a).getD d

/-- Amount actually moved from wallet to savings by one operation in state
`d` (zero unless the operation is an accepted wallet-to-savings
transfer). -/
def wsDelta (d : MonthData) : Op → Int
  | .transferWalletToSavings a => if a ≤ 0 ∨ a > d.wallet then 0 else a
  | _ => 0

/-- Amount actually credited to savings by one direct-credit operation in
state `d`. -/
def csDelta (_d : MonthData) : Op → Int
  | .creditSavingsDirectly a => if a ≤ 0 then 0 else a
  | _ => 0

/-- Run a sequence of user operations from a starting state. -/
def runOps (d : MonthData) : List Op → MonthData
  | [] => d
  | op :: ops => runOps (applyOp d op) ops

/-- Net amount moved from wallet to savings over a run. -/
def netWalletToSavings (d : MonthData) : List Op → Int
  | [] => 0
  | op :: ops => wsDelta d op + netWalletToSavings (applyOp d op) ops

/-- Net amount credited to savings by direct credits over a run. -/
def netSavingsCredits (d : MonthData) : List Op → Int
  | [] => 0
  | op :: ops => csDelta d op + netSavingsCredits (applyOp d op) ops

/-- Wallet effect of a live income entry: its amount when in KWD, else
zero (src/script.js lines 321-323). -/
def incomeEffect (e : IncomeEntry) : Int :=
  if e.currency = "KWD" then e.amountFils else 0

/-- Wallet effect of a live expense entry: its amount when in KWD with
method "wallet", else zero (src/script.js lines 357-359). -/
def expenseWalletEffect (e : ExpenseEntry) : Int :=
  if e.currency = "KWD" ∧ e.method = "wallet" then e.amountFils else 0

/-- Savings effect of a live expense entry: its amount when in KWD with
method "bank", else zero (src/script.js lines 360-361). -/
def expenseBankEffect (e : ExpenseEntry) : Int :=
  if e.currency = "KWD" ∧ e.method = "bank" then e.amountFils else 0

/-- Sum of an integer-valued function over a list. -/
def sumBy (f : α → Int) : List α → Int
  | [] => 0
  | x :: xs => f x + sumBy f xs

/-- Value held in an own property of one of the currency-map objects.
Besides exact integers, two non-numeric JavaScript values are reachable:
`str` stands for the non-numeric strings produced when `+=` concatenates
an inherited `Object.prototype` member (a function, or the prototype
object itself) with a number; every such string is nonempty (hence
truthy) and is never parsed back by the program, so only its
non-numeric-ness matters.  `nan` stands for NaN (falsy), the result of
adding a number to `undefined`; it is included for totality. -/
inductive JsVal where
  | num (n : Int)
  | str
  | nan
deriving DecidableEq

/-- Property names a fresh object literal `{}` inherits from
`Object.prototype` in a browser environment (ECMAScript 20.2.3 together
with the Annex B legacy accessors).  Reading any of these on `{}` yields a
truthy function — or, for "__proto__", the prototype object — instead of
`undefined`. -/
def protoProps : List String :=
  ["constructor", "hasOwnProperty", "isPrototypeOf", "propertyIsEnumerable",
   "toLocaleString", "toString", "valueOf", "__defineGetter__", "__defineSetter__",
   "__lookupGetter__", "__lookupSetter__", "__proto__"]

/-- Result of the property read `obj[k]`: an own property, a member
inherited from `Object.prototype` through the prototype chain, or
`undefined`. -/
inductive JsProp where
  | undef
  | inherited
  | own (v : JsVal)
deriving DecidableEq

/-- Own-property lookup on the insertion-ordered own-property list of a
currency-map object: `none` means the object has no own property `k`. -/
def jsLookup : List (String × JsVal) → String → Option JsVal
  | [], _ => none
  | p :: rest, k => if p.1 = k then some p.2 else jsLookup rest k

/-- Raw own-property write: overwrite in place when the key exists,
otherwise append the new key at the end (JavaScript insertion order). -/
def jsSetOwn : List (String × JsVal) → String → JsVal → List (String × JsVal)
  | [], k, v => [(k, v)]
  | p :: rest, k, v => if p.1 = k then (k, v) :: rest else p :: jsSetOwn rest k v

/-- Property read `obj[k]` including the prototype chain: an own property
shadows; otherwise a fresh object literal inherits the `Object.prototype`
members listed in `protoProps`. -/
def jsRead (obj : List (String × JsVal)) (k : String) : JsProp :=
  match jsLookup obj k with
  | some v => JsProp.own v
  | none => if k ∈ protoProps then JsProp.inherited else JsProp.undef

/-- Property write `obj[k] = v` for the non-object values written by this
program: normally an own-property write (shadowing any inherited member),
except that when `k` is "__proto__" and no own property shadows the
inherited accessor, the Annex B `__proto__` setter silently discards a
non-object value and the object is left unchanged. -/
def jsWrite (obj : List (String × JsVal)) (k : String) (v : JsVal) :
    List (String × JsVal) :=
  if k = "__proto__" ∧ jsLookup obj k = none then obj
  else jsSetOwn obj k v

/-- JavaScript falsiness of `obj[cur]` as read by `!obj[currency]`:
`undefined`, `0` and `NaN` are falsy; inherited members (functions or the
prototype object) and the reachable nonempty garbage strings are
truthy. -/
def jsFalsy : JsProp → Bool
  | JsProp.undef => true
  | JsProp.inherited => false
  | JsProp.own (JsVal.num n) => n == 0
  | JsProp.own JsVal.str => false
  | JsProp.own JsVal.nan => true

/-- Value of `obj[cur] + amt` as computed by `obj[cur] += amt`: exact
integer addition on a numeric own property, string concatenation (a
non-numeric string) on an inherited function/object or an own garbage
string, and NaN on `undefined` or NaN. -/
def jsIncrement : JsProp → Int → JsVal
  | JsProp.own (JsVal.num n), a => JsVal.num (n + a)
  | JsProp.own JsVal.str, _ => JsVal.str
  | JsProp.own JsVal.nan, _ => JsVal.nan
  | JsProp.inherited, _ => JsVal.str
  | JsProp.undef, _ => JsVal.nan

/-- The `ensureCurrency` helper (src/script.js lines 127-129 and 258-260):
`if (!obj[currency]) obj[currency] = 0`.  For a currency named after an
inherited `Object.prototype` member the read is truthy, so the
zero-initialization is skipped. -/
def ensureCurrency (obj : List (String × JsVal)) (cur : String) :
    List (String × JsVal) :=
  if jsFalsy (jsRead obj cur) then jsWrite obj cur (JsVal.num 0) else obj

/-- Loop body `ensureCurrency(obj, cur); obj[cur] += amt` shared by the
totals and lending-summary loops (src/script.js lines 131-139 and
262-272). -/
def addToCurrency (obj : List (String × JsVal)) (cur : String) (amt : Int) :
    List (String × JsVal) :=
  let obj1 := ensureCurrency obj cur
  jsWrite obj1 cur (jsIncrement (jsRead obj1 cur) amt)

/-- Integer content of an own-property value, zero for anything else;
used to state what the accumulated totals hold. -/
def jsNumOf : Option JsVal → Int
  | some (JsVal.num n) => n
  | _ => 0

/-- Accumulation loop over entries: for each entry passing the filter, add
its amount into the bucket of its currency.  This is the common shape of
the four `forEach` loops in `calculateTotals` and `renderLBSummary`. -/
def currencyFold (sel : α → Bool) (key : α → String) (amt : α → Int) (l : List α) :
    List (String × JsVal) :=
  l.foldl (fun acc e => if sel e then addToCurrency acc (key e) (amt e) else acc) []

/-- Model of `calculateTotals` (src/script.js lines 122-142): per-currency
income totals and per-currency expense totals, accumulated entry by
entry. -/
def calculateTotals (d : MonthData) :
    List (String × JsVal) × List (String × JsVal) :=
  (currencyFold (fun _ => true) IncomeEntry.currency IncomeEntry.amountFils d.income,
   currencyFold (fun _ => true) ExpenseEntry.currency ExpenseEntry.amountFils d.expenses)

/-- Model of the data computed by `renderLBSummary` (src/script.js lines
254-281): the `toReceive` and `toPayBack` currency maps.  The source
builds both objects in one pass over `monthData.lending`; since each
iteration touches at most one of the two independent objects, the pass is
modelled as two folds.  The `else if (entry.type === "borrow")` branch is
reached only when the type is not "lend", which is equivalent to testing
`entry.type == "borrow"` directly. -/
def renderLBSummary (lending : List LendingEntry) :
    List (String × JsVal) × List (String × JsVal) :=
  (currencyFold (fun e => e.status == "pending" && e.type == "lend")
      LendingEntry.currency LendingEntry.amountFils lending,
   currencyFold (fun e => e.status == "pending" && e.type == "borrow")
      LendingEntry.currency LendingEntry.amountFils lending)

/-- Concrete operation sequence of the specification scenario (section 8):
income "100.000" KWD, wallet expense "25.500" KWD, transfer "50.000" to
savings, edit the expense amount to "10.000", delete the income entry.
The amount strings flow through `amountToFils` as in the form handlers. -/
def scenarioOps : List Op :=
  [ Op.addIncome
      { date := "2025-01-01", source := "Salary",
        amountFils := (amountToFils ("100.000".toList)).getD 0,
        currency := "KWD", notes := "" }
  , Op.addExpense
      { date := "2025-01-02", category := "Groceries",
        amountFils := (amountToFils ("25.500".toList)).getD 0,
        currency := "KWD", method := "wallet", notes := "" }
  , Op.transferWalletToSavings ((amountToFils ("50.000".toList)).getD 0)
  , Op.editExpense 0 "2025-01-02" "Groceries"
      ((amountToFils ("10.000".toList)).getD 0) "KWD" "" "wallet"
  , Op.deleteIncome 0 ]

/-! Helper lemmas about `sumBy`. -/

theorem sumBy_append (f : α → Int) (l : List α) (x : α) :
    sumBy f (l ++ [x]) = sumBy f l + f x := by
  induction l with
  | nil => simp [sumBy]
  | cons a t ih => simp [sumBy, ih]; omega

theorem sumBy_set (f : α → Int) (l : List α) (i : Nat) (e x : α)
    (h : l[i]? = some e) : sumBy f (l.set i x) = sumBy f l - f e + f x := by
  induction l generalizing i with
  | nil => simp at h
  | cons a t ih =>
    cases i with
    | zero =>
      simp only [List.getElem?_cons_zero, Option.some.injEq] at h
      subst h
      simp [sumBy]
      omega
    | succ n =>
      simp only [List.getElem?_cons_succ] at h
      simp [sumBy, ih n h]
      omega

theorem sumBy_eraseIdx (f : α → Int) (l : List α) (i : Nat) (e : α)
    (h : l[i]? = some e) : sumBy f (l.eraseIdx i) = sumBy f l - f e := by
  induction l generalizing i with
  | nil => simp at h
  | cons a t ih =>
    cases i with
    | zero =>
      simp only [List.getElem?_cons_zero, Option.some.injEq] at h
      subst h
      simp [sumBy]
    | succ n =>
      simp only [List.getElem?_cons_succ] at h
      simp [sumBy, List.eraseIdx_cons_succ, ih n h]
      omega

theorem sumBy_congr (f g : α → Int) (l : List α) (h : ∀ e ∈ l, f e = g e) :
    sumBy f l = sumBy g l := by
  induction l with
  | nil => rfl
  | cons a t ih =>
    simp only [sumBy, h a (List.mem_cons_self a t),
      ih (fun e he => h e (List.mem_cons_of_mem a he))]

theorem sumBy_eq_zero_of_not_any (p : α → Bool) (amt : α → Int) (l : List α)
    (h : l.any p = false) :
    sumBy (fun e => if p e then amt e else 0) l = 0 := by
  induction l with
  | nil => rfl
  | cons a t ih =>
    simp only [List.any_cons, Bool.or_eq_false_iff] at h
    simp [sumBy, h.1, ih h.2]

/-! Helper lemmas about the JavaScript object model. -/

theorem jsLookup_jsSetOwn_self (obj : List (String × JsVal)) (k : String) (v : JsVal) :
    jsLookup (jsSetOwn obj k v) k = some v := by
  induction obj with
  | nil => simp [jsSetOwn, jsLookup]
  | cons p rest ih =>
    by_cases h : p.1 = k
    · simp [jsSetOwn, h, jsLookup]
    · simp [jsSetOwn, h, jsLookup, ih]

theorem jsLookup_jsSetOwn_ne (obj : List (String × JsVal)) (k k2 : String) (v : JsVal)
    (h : k ≠ k2) : jsLookup (jsSetOwn obj k v) k2 = jsLookup obj k2 := by
  induction obj with
  | nil => simp [jsSetOwn, jsLookup, h]
  | cons p rest ih =>
    simp only [jsSetOwn]
    by_cases hp : p.1 = k
    · rw [if_pos hp]
      simp only [jsLookup]
      rw [if_neg h, if_neg (fun e => h (hp.symm.trans e))]
    · rw [if_neg hp]
      simp only [jsLookup]
      by_cases hq : p.1 = k2
      · rw [if_pos hq, if_pos hq]
      · rw [if_neg hq, if_neg hq]
        exact ih

theorem proto_mem_protoProps : "__proto__" ∈ protoProps := by decide

theorem jsWrite_eq_setOwn (obj : List (String × JsVal)) (k : String) (v : JsVal)
    (h : k ≠ "__proto__") : jsWrite obj k v = jsSetOwn obj k v := by
  unfold jsWrite
  rw [if_neg (fun hc => h hc.1)]

theorem jsLookup_jsWrite_ne (obj : List (String × JsVal)) (k k2 : String) (v : JsVal)
    (h : k ≠ k2) : jsLookup (jsWrite obj k v) k2 = jsLookup obj k2 := by
  unfold jsWrite
  by_cases hc : k = "__proto__" ∧ jsLookup obj k = none
  · rw [if_pos hc]
  · rw [if_neg hc]
    exact jsLookup_jsSetOwn_ne obj k k2 v h

theorem jsRead_of_lookup_none (obj : List (String × JsVal)) (k : String)
    (hk : k ∉ protoProps) (h : jsLookup obj k = none) :
    jsRead obj k = JsProp.undef := by
  unfold jsRead
  rw [h]
  simp [hk]

theorem jsRead_of_lookup_some (obj : List (String × JsVal)) (k : String) (v : JsVal)
    (h : jsLookup obj k = some v) : jsRead obj k = JsProp.own v := by
  unfold jsRead
  rw [h]

theorem jsLookup_addToCurrency_self (obj : List (String × JsVal)) (k : String) (a : Int)
    (hk : k ∉ protoProps)
    (hnum : jsLookup obj k = none ∨ ∃ n, jsLookup obj k = some (JsVal.num n)) :
    jsLookup (addToCurrency obj k a)
      k = some (JsVal.num (jsNumOf (jsLookup obj k) + a)) := by
  have hkp : k ≠ "__proto__" := fun e => hk (e ▸ proto_mem_protoProps)
  simp only [addToCurrency, ensureCurrency]
  rcases hnum with h | ⟨n, h⟩
  · rw [jsRead_of_lookup_none obj k hk h]
    rw [if_pos (by decide : jsFalsy JsProp.undef = true)]
    rw [jsWrite_eq_setOwn obj k (JsVal.num 0) hkp]
    rw [jsRead_of_lookup_some _ _ _ (jsLookup_jsSetOwn_self obj k (JsVal.num 0))]
    rw [jsWrite_eq_setOwn _ _ _ hkp, jsLookup_jsSetOwn_self]
    rw [h]
    simp [jsIncrement, jsNumOf]
  · rw [jsRead_of_lookup_some obj k _ h]
    by_cases hn : n = 0
    · subst hn
      rw [if_pos (by decide : jsFalsy (JsProp.own (JsVal.num 0)) = true)]
      rw [jsWrite_eq_setOwn obj k (JsVal.num 0) hkp]
      rw [jsRead_of_lookup_some _ _ _ (jsLookup_jsSetOwn_self obj k (JsVal.num 0))]
      rw [jsWrite_eq_setOwn _ _ _ hkp, jsLookup_jsSetOwn_self]
      rw [h]
      simp [jsIncrement, jsNumOf]
    · rw [if_neg (show ¬(jsFalsy (JsProp.own (JsVal.num n)) = true) by simp [jsFalsy, hn])]
      rw [jsWrite_eq_setOwn _ _ _ hkp, jsLookup_jsSetOwn_self]
      rw [jsRead_of_lookup_some obj k _ h]
      rw [h]
      simp [jsIncrement, jsNumOf]

theorem jsLookup_addToCurrency_ne (obj : List (String × JsVal)) (k : String) (a : Int)
    (k2 : String) (h : k ≠ k2) :
    jsLookup (addToCurrency obj k a) k2 = jsLookup obj k2 := by
  simp only [addToCurrency, ensureCurrency]
  by_cases hf : jsFalsy (jsRead obj k) = true
  · rw [if_pos hf, jsLookup_jsWrite_ne _ _ _ _ h, jsLookup_jsWrite_ne _ _ _ _ h]
  · rw [if_neg hf, jsLookup_jsWrite_ne _ _ _ _ h]

/-- Characterization of the shared accumulation loop at a currency that is
not an inherited `Object.prototype` property name: looking it up in the
accumulated object returns the incoming numeric value plus the sum of the
selected entries of that currency, and entries of other currencies never
touch it. -/
theorem jsLookup_currencyFold_loop (sel : α → Bool) (key : α → String) (amt : α → Int)
    (l : List α) (acc : List (String × JsVal)) (k : String)
    (hk : k ∉ protoProps)
    (hacc : jsLookup acc k = none ∨ ∃ n, jsLookup acc k = some (JsVal.num n)) :
    jsLookup (l.foldl (fun a e => if sel e then addToCurrency a (key e) (amt e) else a) acc) k
      = if l.any (fun e => sel e && (key e == k))
        then some (JsVal.num (jsNumOf (jsLookup acc k)
          + sumBy (fun e => if sel e && (key e == k) then amt e else 0) l))
        else jsLookup acc k := by
  induction l generalizing acc with
  | nil => simp [sumBy]
  | cons e rest ih =>
    simp only [List.foldl_cons, List.any_cons, sumBy]
    by_cases hsel : sel e = true
    · by_cases hkey : key e = k
      · subst hkey
        rw [if_pos hsel]
        have hself := jsLookup_addToCurrency_self acc (key e) (amt e) hk hacc
        rw [ih (addToCurrency acc (key e) (amt e)) (Or.inr ⟨_, hself⟩)]
        have hb : (sel e && (key e == key e)) = true := by simp [hsel]
        by_cases hr : rest.any (fun x => sel x && (key x == key e)) = true
        · rw [if_pos hr, hself]
          rw [if_pos (show ((sel e && (key e == key e))
              || rest.any (fun x => sel x && (key x == key e))) = true by simp [hb, hr])]
          rw [if_pos hb]
          simp only [jsNumOf]
          exact congrArg (fun z => some (JsVal.num z)) (by omega)
        · have hr2 : rest.any (fun x => sel x && (key x == key e)) = false :=
            Bool.not_eq_true _ ▸ hr
          rw [if_neg hr, hself]
          rw [if_pos (show ((sel e && (key e == key e))
              || rest.any (fun x => sel x && (key x == key e))) = true by
            rw [Bool.or_eq_true]
            exact Or.inl hb)]
          rw [if_pos hb, sumBy_eq_zero_of_not_any _ _ _ hr2]
          simp only [jsNumOf]
          exact congrArg (fun z => some (JsVal.num z)) (by omega)
      · rw [if_pos hsel]
        have hne := jsLookup_addToCurrency_ne acc (key e) (amt e) k hkey
        rw [ih (addToCurrency acc (key e) (amt e)) (by rw [hne]; exact hacc), hne]
        have hb : (sel e && (key e == k)) = false := by simp [hkey]
        rw [hb]
        simp only [Bool.false_or]
        by_cases hr : rest.any (fun x => sel x && (key x == k)) = true
        · rw [if_pos hr, if_pos hr]
          simp
        · rw [if_neg hr, if_neg hr]
    · have hsel2 : sel e = false := by
        revert hsel
        cases sel e <;> simp
      rw [if_neg hsel, ih acc hacc]
      have hb : (sel e && (key e == k)) = false := by simp [hsel2]
      rw [hb]
      simp only [Bool.false_or]
      by_cases hr : rest.any (fun x => sel x && (key x == k)) = true
      · rw [if_pos hr, if_pos hr]
        simp
      · rw [if_neg hr, if_neg hr]

/-- Counterexample to C8 as stated: the program does not return a key for
every currency appearing in the entries, nor always a numeric sum.  An
income entry with currency "__proto__" leaves the totals object with no
key at all (the inherited `__proto__` setter discards the write and the
amount vanishes), and an income entry with currency "toString" stores a
concatenated string (function plus number), not the sum. -/
theorem totals_proto_currency_dropped :
    (calculateTotals { emptyMonthData with income :=
        [{ date := "2025-01-01", source := "Salary", amountFils := 5,
           currency := "__proto__", notes := "" }] }).1 = []
    ∧ jsLookup (calculateTotals { emptyMonthData with income :=
        [{ date := "2025-01-01", source := "Salary", amountFils := 5,
           currency := "toString", notes := "" }] }).1 "toString"
        = some JsVal.str := by
  decide

/-- C8 (amended): for every month state and every currency tag that is not
an inherited `Object.prototype` property name, the totals maps of
`calculateTotals` hold a key exactly when some entry carries that
currency, and that key holds the exact numeric sum of the amounts of
exactly the entries carrying it — no amount is ever added into a
different currency's bucket, even when other entries use inherited
property names as currencies.  For inherited names the program misbehaves
as the counterexample shows. -/
theorem totals_by_currency_exact (d : MonthData) (cur : String)
    (hcur : cur ∉ protoProps) :
    jsLookup (calculateTotals d).1 cur
      = (if ∃ e ∈ d.income, e.currency = cur
         then some (JsVal.num
           (sumBy (fun e => if e.currency = cur then e.amountFils else 0) d.income))
         else none)
    ∧ jsLookup (calculateTotals d).2 cur
      = (if ∃ e ∈ d.expenses, e.currency = cur
         then some (JsVal.num
           (sumBy (fun e => if e.currency = cur then e.amountFils else 0) d.expenses))
         else none) := by
  constructor
  · refine Eq.trans (jsLookup_currencyFold_loop (fun _ => true) IncomeEntry.currency
      IncomeEntry.amountFils d.income [] cur hcur (Or.inl rfl)) ?_
    simp only [jsLookup, jsNumOf, zero_add]
    by_cases hex : ∃ e ∈ d.income, e.currency = cur
    · have hany : (d.income.any fun e => (fun _ => true) e && (e.currency == cur)) = true := by
        simpa [List.any_eq_true] using hex
      rw [if_pos hany, if_pos hex]
      refine congrArg (fun z => some (JsVal.num z)) ?_
      exact sumBy_congr _ _ _ (fun e _ => by by_cases h : e.currency = cur <;> simp [h])
    · have hany : ¬((d.income.any fun e => (fun _ => true) e && (e.currency == cur)) = true) := by
        simpa [List.any_eq_true] using hex
      rw [if_neg hany, if_neg hex]
  · refine Eq.trans (jsLookup_currencyFold_loop (fun _ => true) ExpenseEntry.currency
      ExpenseEntry.amountFils d.expenses [] cur hcur (Or.inl rfl)) ?_
    simp only [jsLookup, jsNumOf, zero_add]
    by_cases hex : ∃ e ∈ d.expenses, e.currency = cur
    · have hany : (d.expenses.any fun e => (fun _ => true) e && (e.currency == cur)) = true := by
        simpa [List.any_eq_true] using hex
      rw [if_pos hany, if_pos hex]
      refine congrArg (fun z => some (JsVal.num z)) ?_
      exact sumBy_congr _ _ _ (fun e _ => by by_cases h : e.currency = cur <;> simp [h])
    · have hany : ¬((d.expenses.any fun e => (fun _ => true) e && (e.currency == cur)) = true) := by
        simpa [List.any_eq_true] using hex
      rw [if_neg hany, if_neg hex]

/-- Witness for `totals_by_currency_exact` at a concrete state: two KWD
income entries of 5 and -2 plus a USD entry of 7 give a KWD total of 3,
and "KWD" is not an inherited property name. -/
theorem totals_by_currency_exact_witness :
    jsLookup (calculateTotals { emptyMonthData with income :=
        [{ date := "d1", source := "a", amountFils := 5, currency := "KWD", notes := "" },
         { date := "d2", source := "b", amountFils := 7, currency := "USD", notes := "" },
         { date := "d3", source := "c", amountFils := -2, currency := "KWD", notes := "" }]
      }).1 "KWD" = some (JsVal.num 3) := by
  have h := (totals_by_currency_exact { emptyMonthData with income :=
      [{ date := "d1", source := "a", amountFils := 5, currency := "KWD", notes := "" },
       { date := "d2", source := "b", amountFils := 7, currency := "USD", notes := "" },
       { date := "d3", source := "c", amountFils := -2, currency := "KWD", notes := "" }]
    } "KWD" (by decide)).1
  exact h.trans (by decide)

/-- Counterexample to C7 as stated: a pending lend entry with currency
"__proto__" contributes nothing to `toReceive` (the inherited `__proto__`
setter discards the write, so the amount is silently dropped), and a
pending borrow entry with currency "toString" leaves a concatenated
string, not its amount, in `toPayBack`. -/
theorem lending_exposure_proto_dropped :
    (renderLBSummary
        [{ date := "2025-01-02", name := "Ali", amountFils := 7,
           currency := "__proto__", reason := "", type := "lend",
           status := "pending" }]).1 = []
    ∧ jsLookup (renderLBSummary
        [{ date := "2025-01-02", name := "Ali", amountFils := 7,
           currency := "toString", reason := "", type := "borrow",
           status := "pending" }]).2 "toString" = some JsVal.str := by
  decide

/-- C7 (amended): for every lending list and every currency tag that is
not an inherited `Object.prototype` property name, an entry contributes to
the lending summary exactly when its status is "pending": a pending lend
entry contributes its amount to the `toReceive` bucket of its own
currency, a pending borrow entry to the `toPayBack` bucket of its own
currency, with per-currency numeric sums and no cross-currency mixing (a
currency with no contributing entry has no key).  For inherited names the
program misbehaves as the counterexample shows. -/
theorem lending_exposure_pending_only (lending : List LendingEntry) (cur : String)
    (hcur : cur ∉ protoProps) :
    jsLookup (renderLBSummary lending).1 cur
      = (if ∃ e ∈ lending, e.status = "pending" ∧ e.type = "lend" ∧ e.currency = cur
         then some (JsVal.num (sumBy (fun e =>
            if e.status = "pending" ∧ e.type = "lend" ∧ e.currency = cur
            then e.amountFils else 0) lending))
         else none)
    ∧ jsLookup (renderLBSummary lending).2 cur
      = (if ∃ e ∈ lending, e.status = "pending" ∧ e.type = "borrow" ∧ e.currency = cur
         then some (JsVal.num (sumBy (fun e =>
            if e.status = "pending" ∧ e.type = "borrow" ∧ e.currency = cur
            then e.amountFils else 0) lending))
         else none) := by
  constructor
  · refine Eq.trans (jsLookup_currencyFold_loop
      (fun (e : LendingEntry) => e.status == "pending" && e.type == "lend")
      LendingEntry.currency LendingEntry.amountFils lending [] cur hcur (Or.inl rfl)) ?_
    simp only [jsLookup, jsNumOf, zero_add]
    by_cases hex : ∃ e ∈ lending, e.status = "pending" ∧ e.type = "lend" ∧ e.currency = cur
    · have hany : (lending.any fun e =>
          (e.status == "pending" && e.type == "lend") && (e.currency == cur)) = true := by
        simp only [List.any_eq_true, Bool.and_eq_true, beq_iff_eq]
        obtain ⟨e, he, h1, h2, h3⟩ := hex
        exact ⟨e, he, ⟨h1, h2⟩, h3⟩
      rw [if_pos hany, if_pos hex]
      refine congrArg (fun z => some (JsVal.num z)) (sumBy_congr _ _ _ (fun e _ => ?_))
      by_cases h1 : e.status = "pending" <;> by_cases h2 : e.type = "lend" <;>
        by_cases h3 : e.currency = cur <;> simp [h1, h2, h3]
    · have hany : ¬((lending.any fun e =>
          (e.status == "pending" && e.type == "lend") && (e.currency == cur)) = true) := by
        simp only [List.any_eq_true, Bool.and_eq_true, beq_iff_eq]
        intro ⟨e, he, ⟨h1, h2⟩, h3⟩
        exact hex ⟨e, he, h1, h2, h3⟩
      rw [if_neg hany, if_neg hex]
  · refine Eq.trans (jsLookup_currencyFold_loop
      (fun (e : LendingEntry) => e.status == "pending" && e.type == "borrow")
      LendingEntry.currency LendingEntry.amountFils lending [] cur hcur (Or.inl rfl)) ?_
    simp only [jsLookup, jsNumOf, zero_add]
    by_cases hex : ∃ e ∈ lending, e.status = "pending" ∧ e.type = "borrow" ∧ e.currency = cur
    · have hany : (lending.any fun e =>
          (e.status == "pending" && e.type == "borrow") && (e.currency == cur)) = true := by
        simp only [List.any_eq_true, Bool.and_eq_true, beq_iff_eq]
        obtain ⟨e, he, h1, h2, h3⟩ := hex
        exact ⟨e, he, ⟨h1, h2⟩, h3⟩
      rw [if_pos hany, if_pos hex]
      refine congrArg (fun z => some (JsVal.num z)) (sumBy_congr _ _ _ (fun e _ => ?_))
      by_cases h1 : e.status = "pending" <;> by_cases h2 : e.type = "borrow" <;>
        by_cases h3 : e.currency = cur <;> simp [h1, h2, h3]
    · have hany : ¬((lending.any fun e =>
          (e.status == "pending" && e.type == "borrow") && (e.currency == cur)) = true) := by
        simp only [List.any_eq_true, Bool.and_eq_true, beq_iff_eq]
        intro ⟨e, he, ⟨h1, h2⟩, h3⟩
        exact hex ⟨e, he, h1, h2, h3⟩
      rw [if_neg hany, if_neg hex]

/-- Witness for `lending_exposure_pending_only` at a concrete list: of a
pending KWD lend of 4, a settled KWD lend of 9 and a pending KWD borrow of
6, only the pending lend reaches `toReceive`, giving 4 under "KWD". -/
theorem lending_exposure_pending_only_witness :
    jsLookup (renderLBSummary
        [{ date := "d1", name := "x", amountFils := 4, currency := "KWD",
           reason := "", type := "lend", status := "pending" },
         { date := "d2", name := "y", amountFils := 9, currency := "KWD",
           reason := "", type := "lend", status := "settled" },
         { date := "d3", name := "z", amountFils := 6, currency := "KWD",
           reason := "", type := "borrow", status := "pending" }]).1 "KWD"
      = some (JsVal.num 4) := by
  have h := (lending_exposure_pending_only
      [{ date := "d1", name := "x", amountFils := 4, currency := "KWD",
         reason := "", type := "lend", status := "pending" },
       { date := "d2", name := "y", amountFils := 9, currency := "KWD",
         reason := "", type := "lend", status := "settled" },
       { date := "d3", name := "z", amountFils := 6, currency := "KWD",
         reason := "", type := "borrow", status := "pending" }] "KWD" (by decide)).1
  exact h.trans (by decide)

/-- C2: starting from an empty KWD-primary month, the concrete sequence
(create income "100.000" KWD, create wallet expense "25.500" KWD, transfer
50.000 to savings, edit the expense amount to "10.000", delete the income
entry) yields wallet 100000, then 74500, then wallet 24500 with savings
50000, then wallet 40000, and finally wallet -60000: a negative wallet is
permitted with no floor enforced. -/
theorem scenario_balances :
    amountToFils ("100.000".toList) = some 100000
    ∧ amountToFils ("25.500".toList) = some 25500
    ∧ amountToFils ("50.000".toList) = some 50000
    ∧ amountToFils ("10.000".toList) = some 10000
    ∧ (runOps emptyMonthData (scenarioOps.take 1)).wallet = 100000
    ∧ (runOps emptyMonthData (scenarioOps.take 2)).wallet = 74500
    ∧ (runOps emptyMonthData (scenarioOps.take 3)).wallet = 24500
    ∧ (runOps emptyMonthData (scenarioOps.take 3)).savings = 50000
    ∧ (runOps emptyMonthData (scenarioOps.take 4)).wallet = 40000
    ∧ (runOps emptyMonthData scenarioOps).wallet = -60000
    ∧ (runOps emptyMonthData scenarioOps).savings = 50000 := by
  decide

/-- C4: the wallet-to-savings transfer is rejected exactly when the amount
is not positive or exceeds the wallet, in which case the ledger is left
unchanged; otherwise the amount moves from wallet to savings and nothing
else changes. -/
theorem walletToSavings_guard (d : MonthData) (a : Int) :
    (a ≤ 0 ∨ a > d.wallet →
      walletToSavingsClick d a = none
      ∧ applyOp d (Op.transferWalletToSavings a) = d)
    ∧ (0 < a → a ≤ d.wallet →
      walletToSavingsClick d a
        = some { d with wallet := d.wallet - a, savings := d.savings + a }) := by
  constructor
  · intro h
    constructor
    · simp only [walletToSavingsClick]
      rw [if_pos h]
    · simp only [applyOp, walletToSavingsClick]
      rw [if_pos h]
      rfl
  · intro h1 h2
    have hc : ¬(a ≤ 0 ∨ a > d.wallet) := by omega
    simp only [walletToSavingsClick]
    rw [if_neg hc]

/-- Witness for `walletToSavings_guard` at concrete states: a transfer of
50 against a wallet of 10 is rejected with no state change, and a transfer
of 4 against a wallet of 10 moves 4 from wallet to savings. -/
theorem walletToSavings_guard_witness :
    walletToSavingsClick { emptyMonthData with wallet := 10 } 50 = none
    ∧ applyOp { emptyMonthData with wallet := 10 } (Op.transferWalletToSavings 50)
        = { emptyMonthData with wallet := 10 }
    ∧ walletToSavingsClick { emptyMonthData with wallet := 10 } 4
        = some { emptyMonthData with wallet := 6, savings := 4 } := by
  refine ⟨?_, ?_, ?_⟩
  · exact ((walletToSavings_guard { emptyMonthData with wallet := 10 } 50).1
      (Or.inr (by decide))).1
  · exact ((walletToSavings_guard { emptyMonthData with wallet := 10 } 50).1
      (Or.inr (by decide))).2
  · exact ((walletToSavings_guard { emptyMonthData with wallet := 10 } 4).2
      (by decide) (by decide)).trans (by decide)

/-- C5: the direct savings credit is rejected exactly when the amount is
not positive, leaving the ledger unchanged; otherwise it adds the amount
to savings and leaves the wallet (and the entry lists) untouched, for
every starting state. -/
theorem incomeToSavings_spec (d : MonthData) (a : Int) :
    (a ≤ 0 →
      incomeToSavingsClick d a = none
      ∧ applyOp d (Op.creditSavingsDirectly a) = d)
    ∧ (0 < a →
      incomeToSavingsClick d a = some { d with savings := d.savings + a }) := by
  constructor
  · intro h
    constructor
    · simp only [incomeToSavingsClick]
      rw [if_pos h]
    · simp only [applyOp, incomeToSavingsClick]
      rw [if_pos h]
      rfl
  · intro h
    have hc : ¬ a ≤ 0 := by omega
    simp only [incomeToSavingsClick]
    rw [if_neg hc]

/-- Witness for `incomeToSavings_spec`: crediting 0 is rejected with no
state change, and crediting 7 against a wallet of 3 adds 7 to savings and
leaves the wallet at 3. -/
theorem incomeToSavings_spec_witness :
    incomeToSavingsClick { emptyMonthData with wallet := 3 } 0 = none
    ∧ applyOp { emptyMonthData with wallet := 3 } (Op.creditSavingsDirectly 0)
        = { emptyMonthData with wallet := 3 }
    ∧ incomeToSavingsClick { emptyMonthData with wallet := 3 } 7
        = some { emptyMonthData with wallet := 3, savings := 7 } := by
  refine ⟨?_, ?_, ?_⟩
  · exact ((incomeToSavings_spec { emptyMonthData with wallet := 3 } 0).1 (by decide)).1
  · exact ((incomeToSavings_spec { emptyMonthData with wallet := 3 } 0).1 (by decide)).2
  · exact ((incomeToSavings_spec { emptyMonthData with wallet := 3 } 7).2
      (by decide)).trans (by decide)

/-- C9: creating, editing, or deleting a lending entry — whatever its
currency, direction, status, or amount — leaves both the wallet and the
savings balance unchanged. -/
theorem lending_ops_preserve_balances :
    (∀ (d : MonthData) (e : LendingEntry),
      (lbFormSubmit d e).wallet = d.wallet ∧ (lbFormSubmit d e).savings = d.savings)
    ∧ (∀ (d : MonthData) (i : Nat) (dt nm : String) (a : Int) (c r ty st : String),
      (handleEditLending d i dt nm a c r ty st).wallet = d.wallet
      ∧ (handleEditLending d i dt nm a c r ty st).savings = d.savings)
    ∧ (∀ (d : MonthData) (i : Nat),
      (handleDeleteLending d i).wallet = d.wallet
      ∧ (handleDeleteLending d i).savings = d.savings) := by
  refine ⟨fun d e => ⟨rfl, rfl⟩, fun d i dt nm a c r ty st => ?_, fun d i => ?_⟩
  · unfold handleEditLending
    cases d.lending[i]? <;> exact ⟨rfl, rfl⟩
  · unfold handleDeleteLending
    cases d.lending[i]? <;> exact ⟨rfl, rfl⟩

/-! Closed forms of the revert/apply blocks, and the per-operation step
lemmas for the running balances. -/

theorem revertIncomeImpact_eq (d : MonthData) (e : IncomeEntry) :
    revertIncomeImpact d e = { d with wallet := d.wallet - incomeEffect e } := by
  by_cases h : e.currency = "KWD" <;> simp [revertIncomeImpact, incomeEffect, h]

theorem applyIncomeImpact_eq (d : MonthData) (e : IncomeEntry) :
    applyIncomeImpact d e = { d with wallet := d.wallet + incomeEffect e } := by
  by_cases h : e.currency = "KWD" <;> simp [applyIncomeImpact, incomeEffect, h]

theorem revertExpenseImpact_eq (d : MonthData) (e : ExpenseEntry) :
    revertExpenseImpact d e
      = { d with wallet := d.wallet + expenseWalletEffect e,
                 savings := d.savings + expenseBankEffect e } := by
  by_cases h : e.currency = "KWD"
  · by_cases hm : e.method = "wallet"
    · simp [revertExpenseImpact, expenseWalletEffect, expenseBankEffect, h, hm]
    · by_cases hb : e.method = "bank" <;>
        simp [revertExpenseImpact, expenseWalletEffect, expenseBankEffect, h, hm, hb]
  · simp [revertExpenseImpact, expenseWalletEffect, expenseBankEffect, h]

theorem applyExpenseImpact_eq (d : MonthData) (e : ExpenseEntry) :
    applyExpenseImpact d e
      = { d with wallet := d.wallet - expenseWalletEffect e,
                 savings := d.savings - expenseBankEffect e } := by
  by_cases h : e.currency = "KWD"
  · by_cases hm : e.method = "wallet"
    · simp [applyExpenseImpact, expenseWalletEffect, expenseBankEffect, h, hm]
    · by_cases hb : e.method = "bank" <;>
        simp [applyExpenseImpact, expenseWalletEffect, expenseBankEffect, h, hm, hb]
  · simp [applyExpenseImpact, expenseWalletEffect, expenseBankEffect, h]

theorem applyOp_wallet_key (d : MonthData) (op : Op) :
    (applyOp d op).wallet - sumBy incomeEffect (applyOp d op).income
      + sumBy expenseWalletEffect (applyOp d op).expenses
    = d.wallet - sumBy incomeEffect d.income + sumBy expenseWalletEffect d.expenses
      - wsDelta d op := by
  cases op with
  | addIncome e =>
    by_cases h : e.currency = "KWD" <;>
      simp [applyOp, incomeFormSubmit, wsDelta, h, sumBy_append, incomeEffect]
  | addExpense e =>
    by_cases h : e.currency = "KWD"
    · by_cases hm : e.method = "wallet"
      · simp [applyOp, expenseFormSubmit, wsDelta, h, hm, sumBy_append, expenseWalletEffect]
        omega
      · by_cases hb : e.method = "bank" <;>
          simp [applyOp, expenseFormSubmit, wsDelta, h, hm, hb, sumBy_append,
            expenseWalletEffect]
    · simp [applyOp, expenseFormSubmit, wsDelta, h, sumBy_append, expenseWalletEffect]
  | addLending e => simp [applyOp, lbFormSubmit, wsDelta]
  | editIncome i dt s a c n =>
    simp only [applyOp, wsDelta]
    rcases h : d.income[i]? with _ | entry
    · simp [handleEditIncome, h]
    · simp only [handleEditIncome, h, revertIncomeImpact_eq, applyIncomeImpact_eq]
      rw [sumBy_set incomeEffect d.income i entry _ h]
      omega
  | editExpense i dt cat a c n m =>
    simp only [applyOp, wsDelta]
    rcases h : d.expenses[i]? with _ | entry
    · simp [handleEditExpense, h]
    · simp only [handleEditExpense, h, revertExpenseImpact_eq, applyExpenseImpact_eq]
      rw [sumBy_set expenseWalletEffect d.expenses i entry _ h]
      omega
  | editLending i dt nm a c r ty st =>
    simp only [applyOp, wsDelta, handleEditLending]
    rcases h : d.lending[i]? with _ | entry <;> simp
  | deleteIncome i =>
    simp only [applyOp, wsDelta]
    rcases h : d.income[i]? with _ | entry
    · simp [handleDeleteIncome, h]
    · simp only [handleDeleteIncome, h, revertIncomeImpact_eq]
      rw [sumBy_eraseIdx incomeEffect d.income i entry h]
      omega
  | deleteExpense i =>
    simp only [applyOp, wsDelta]
    rcases h : d.expenses[i]? with _ | entry
    · simp [handleDeleteExpense, h]
    · simp only [handleDeleteExpense, h, revertExpenseImpact_eq]
      rw [sumBy_eraseIdx expenseWalletEffect d.expenses i entry h]
      omega
  | deleteLending i =>
    simp only [applyOp, wsDelta, handleDeleteLending]
    rcases h : d.lending[i]? with _ | entry <;> simp
  | transferWalletToSavings a =>
    simp only [applyOp, wsDelta, walletToSavingsClick]
    by_cases h : a ≤ 0 ∨ a > d.wallet
    · rw [if_pos h, if_pos h]
      simp
    · rw [if_neg h, if_neg h]
      simp only [Option.getD_some]
      omega
  | creditSavingsDirectly a =>
    simp only [applyOp, wsDelta, incomeToSavingsClick]
    by_cases h : a ≤ 0
    · rw [if_pos h]
      simp
    · rw [if_neg h]
      simp

theorem applyOp_savings_key (d : MonthData) (op : Op) :
    (applyOp d op).savings + sumBy expenseBankEffect (applyOp d op).expenses
    = d.savings + sumBy expenseBankEffect d.expenses + wsDelta d op + csDelta d op := by
  cases op with
  | addIncome e =>
    by_cases h : e.currency = "KWD" <;>
      simp [applyOp, incomeFormSubmit, wsDelta, csDelta, h]
  | addExpense e =>
    by_cases h : e.currency = "KWD"
    · by_cases hm : e.method = "wallet"
      · simp [applyOp, expenseFormSubmit, wsDelta, csDelta, h, hm, sumBy_append,
          expenseBankEffect]
      · by_cases hb : e.method = "bank" <;>
          simp [applyOp, expenseFormSubmit, wsDelta, csDelta, h, hm, hb, sumBy_append,
            expenseBankEffect]
    · simp [applyOp, expenseFormSubmit, wsDelta, csDelta, h, sumBy_append,
        expenseBankEffect]
  | addLending e => simp [applyOp, lbFormSubmit, wsDelta, csDelta]
  | editIncome i dt s a c n =>
    simp only [applyOp, wsDelta, csDelta]
    rcases h : d.income[i]? with _ | entry
    · simp [handleEditIncome, h]
    · simp only [handleEditIncome, h, revertIncomeImpact_eq, applyIncomeImpact_eq]
      simp
  | editExpense i dt cat a c n m =>
    simp only [applyOp, wsDelta, csDelta]
    rcases h : d.expenses[i]? with _ | entry
    · simp [handleEditExpense, h]
    · simp only [handleEditExpense, h, revertExpenseImpact_eq, applyExpenseImpact_eq]
      rw [sumBy_set expenseBankEffect d.expenses i entry _ h]
      omega
  | editLending i dt nm a c r ty st =>
    simp only [applyOp, wsDelta, csDelta, handleEditLending]
    rcases h : d.lending[i]? with _ | entry <;> simp
  | deleteIncome i =>
    simp only [applyOp, wsDelta, csDelta]
    rcases h : d.income[i]? with _ | entry
    · simp [handleDeleteIncome, h]
    · simp only [handleDeleteIncome, h, revertIncomeImpact_eq]
      simp
  | deleteExpense i =>
    simp only [applyOp, wsDelta, csDelta]
    rcases h : d.expenses[i]? with _ | entry
    · simp [handleDeleteExpense, h]
    · simp only [handleDeleteExpense, h, revertExpenseImpact_eq]
      rw [sumBy_eraseIdx expenseBankEffect d.expenses i entry h]
      omega
  | deleteLending i =>
    simp only [applyOp, wsDelta, csDelta, handleDeleteLending]
    rcases h : d.lending[i]? with _ | entry <;> simp
  | transferWalletToSavings a =>
    simp only [applyOp, wsDelta, csDelta, walletToSavingsClick]
    by_cases h : a ≤ 0 ∨ a > d.wallet
    · rw [if_pos h, if_pos h]
      simp
    · rw [if_neg h, if_neg h]
      simp only [Option.getD_some]
      omega
  | creditSavingsDirectly a =>
    simp only [applyOp, wsDelta, csDelta, incomeToSavingsClick]
    by_cases h : a ≤ 0
    · rw [if_pos h, if_pos h]
      simp
    · rw [if_neg h, if_neg h]
      simp only [Option.getD_some]
      omega

theorem runOps_key (ops : List Op) : ∀ d : MonthData,
    ((runOps d ops).wallet - sumBy incomeEffect (runOps d ops).income
        + sumBy expenseWalletEffect (runOps d ops).expenses
      = d.wallet - sumBy incomeEffect d.income + sumBy expenseWalletEffect d.expenses
        - netWalletToSavings d ops)
    ∧ ((runOps d ops).savings + sumBy expenseBankEffect (runOps d ops).expenses
      = d.savings + sumBy expenseBankEffect d.expenses
        + netWalletToSavings d ops + netSavingsCredits d ops) := by
  induction ops with
  | nil =>
    intro d
    simp [runOps, netWalletToSavings, netSavingsCredits]
  | cons op ops ih =>
    intro d
    have h1 := applyOp_wallet_key d op
    have h2 := applyOp_savings_key d op
    have h3 := ih (applyOp d op)
    simp only [runOps, netWalletToSavings, netSavingsCredits]
    constructor <;> omega

/-- C1: after any sequence of create, edit, and delete operations (and
transfers) starting from the empty month, the wallet equals the sum of the
live KWD income amounts, minus the live KWD wallet-method expense amounts,
minus the net amount moved by wallet-to-savings transfers; and the savings
balance equals the net amount credited by transfers minus the live KWD
bank-method expense amounts.  Edits and deletes revert exactly the stored
pre-edit effect, so no balance effect is double-applied or leaked. -/
theorem wallet_savings_closed_form (ops : List Op) :
    (runOps emptyMonthData ops).wallet
      = sumBy incomeEffect (runOps emptyMonthData ops).income
        - sumBy expenseWalletEffect (runOps emptyMonthData ops).expenses
        - netWalletToSavings emptyMonthData ops
    ∧ (runOps emptyMonthData ops).savings
      = netWalletToSavings emptyMonthData ops + netSavingsCredits emptyMonthData ops
        - sumBy expenseBankEffect (runOps emptyMonthData ops).expenses := by
  have h := runOps_key ops emptyMonthData
  have e1 : sumBy incomeEffect emptyMonthData.income = 0 := rfl
  have e2 : sumBy expenseWalletEffect emptyMonthData.expenses = 0 := rfl
  have e3 : sumBy expenseBankEffect emptyMonthData.expenses = 0 := rfl
  have e4 : emptyMonthData.wallet = 0 := rfl
  have e5 : emptyMonthData.savings = 0 := rfl
  constructor <;> omega

/-! Helper lemmas about digit strings, `splitOnDot` and `jsNumber`. -/

theorem digitsToNat_append_digit (xs : List Char) (c : Char) :
    digitsToNat (xs ++ [c]) = 10 * digitsToNat xs + (c.toNat - 48) := by
  simp only [digitsToNat, List.foldl_append, List.foldl_cons, List.foldl_nil]
  omega

theorem digitChar_toNat (n : Nat) (h : n < 10) : (digitChar n).toNat = 48 + n := by
  interval_cases n <;> decide

theorem digitChar_isDigit (n : Nat) (h : n < 10) : (digitChar n).isDigit = true := by
  interval_cases n <;> decide

theorem natDigitsAux_fuel (f : Nat) : ∀ n : Nat, n < f →
    natDigitsAux f n = natDigitsAux (n + 1) n := by
  induction f using Nat.strong_induction_on with
  | _ f ih =>
    intro n hn
    match f, hn with
    | f1 + 1, hn =>
      by_cases h : n < 10
      · simp only [natDigitsAux, if_pos h]
      · have h1 : n / 10 < f1 := by omega
        have h2 : n / 10 < n := by omega
        simp only [natDigitsAux, if_neg h]
        rw [ih f1 (by omega) (n / 10) h1, ih n (by omega) (n / 10) h2]

theorem natDigits_unfold (n : Nat) :
    natDigits n = if n < 10 then [digitChar n]
      else natDigits (n / 10) ++ [digitChar (n % 10)] := by
  by_cases h : n < 10
  · simp only [natDigits, natDigitsAux, if_pos h]
  · have h2 : n / 10 < n := by omega
    simp only [natDigits, natDigitsAux, if_neg h]
    rw [natDigitsAux_fuel n (n / 10) h2]
    simp only [natDigitsAux]

theorem natDigits_spec (n : Nat) :
    digitsToNat (natDigits n) = n
    ∧ (natDigits n).all (·.isDigit) = true
    ∧ natDigits n ≠ [] := by
  induction n using Nat.strong_induction_on with
  | _ n ih =>
    by_cases h : n < 10
    · rw [natDigits_unfold, if_pos h]
      refine ⟨?_, ?_, by simp⟩
      · simp [digitsToNat, digitChar_toNat n h]
      · simp [digitChar_isDigit n h]
    · have h10 : n / 10 < n := Nat.div_lt_self (by omega) (by omega)
      obtain ⟨ih1, ih2, _⟩ := ih (n / 10) h10
      rw [natDigits_unfold, if_neg h]
      refine ⟨?_, ?_, by simp⟩
      · rw [digitsToNat_append_digit, ih1,
          digitChar_toNat (n % 10) (Nat.mod_lt n (by omega))]
        omega
      · simp [List.all_append, ih2,
          digitChar_isDigit (n % 10) (Nat.mod_lt n (by omega))]

theorem natDigits_length_le3 (n : Nat) (h : n < 1000) : (natDigits n).length ≤ 3 := by
  rw [natDigits_unfold]
  by_cases h1 : n < 10
  · rw [if_pos h1]; simp
  · rw [if_neg h1, natDigits_unfold]
    by_cases h2 : n / 10 < 10
    · rw [if_pos h2]; simp
    · rw [if_neg h2, natDigits_unfold]
      have h3 : n / 10 / 10 < 10 := by omega
      rw [if_pos h3]; simp

theorem digitsToNat_replicate_zero (k : Nat) (s : List Char) :
    digitsToNat (List.replicate k '0' ++ s) = digitsToNat s := by
  induction k with
  | zero => simp
  | succ m ih =>
    have h0 : (0 : Nat) * 10 + ('0'.toNat - 48) = 0 := by decide
    simp only [List.replicate_succ, List.cons_append, digitsToNat, List.foldl_cons, h0]
    exact ih

theorem padStart3_all_digits (s : List Char) (h : s.all (·.isDigit) = true) :
    (padStart3 s).all (·.isDigit) = true := by
  simp only [padStart3, List.all_append, Bool.and_eq_true]
  refine ⟨?_, h⟩
  simp only [List.all_eq_true]
  intro c hc
  rw [List.eq_of_mem_replicate hc]
  decide

theorem padStart3_length (s : List Char) (h : s.length ≤ 3) :
    (padStart3 s).length = 3 := by
  simp [padStart3]
  omega

theorem digitsToNat_padStart3 (s : List Char) :
    digitsToNat (padStart3 s) = digitsToNat s :=
  digitsToNat_replicate_zero _ _

theorem isDigit_notMem_dot (s : List Char) (h : s.all (·.isDigit) = true) :
    '.' ∉ s := by
  intro hm
  have := List.all_eq_true.mp h _ hm
  simp at this

theorem splitOnDot_no_dot (s : List Char) (h : '.' ∉ s) : splitOnDot s = [s] := by
  induction s with
  | nil => rfl
  | cons c t ih =>
    have hc : c ≠ '.' := fun e => h (e ▸ List.mem_cons_self c t)
    have ht : '.' ∉ t := fun m => h (List.mem_cons_of_mem c m)
    simp only [splitOnDot]
    rw [if_neg hc, ih ht]

theorem splitOnDot_append_dot (a b : List Char) (h : '.' ∉ a) :
    splitOnDot (a ++ '.' :: b) = a :: splitOnDot b := by
  induction a with
  | nil =>
    simp [splitOnDot]
  | cons c t ih =>
    have hc : c ≠ '.' := fun e => h (e ▸ List.mem_cons_self c t)
    have ht : '.' ∉ t := fun m => h (List.mem_cons_of_mem c m)
    simp only [List.cons_append, splitOnDot, List.append_eq]
    rw [if_neg hc, ih ht]

theorem isDigit_ne_dash (c : Char) (h : c.isDigit = true) : c ≠ '-' := by
  intro e
  subst e
  exact absurd h (by decide)

theorem isDigit_ne_plus (c : Char) (h : c.isDigit = true) : c ≠ '+' := by
  intro e
  subst e
  exact absurd h (by decide)

theorem jsNumber_digits (s : List Char) (h : s.all (·.isDigit) = true) :
    jsNumber s = some ((digitsToNat s : Int)) := by
  cases s with
  | nil => simp [jsNumber, digitsToNat]
  | cons c t =>
    have hc : c.isDigit = true := by
      simp only [List.all_cons, Bool.and_eq_true] at h
      exact h.1
    simp only [jsNumber]
    rw [if_neg (isDigit_ne_dash c hc), if_neg (isDigit_ne_plus c hc), if_pos h]

theorem jsNumber_neg_digits (s : List Char) (h : s.all (·.isDigit) = true)
    (hne : s ≠ []) :
    jsNumber ('-' :: s) = some (-(digitsToNat s : Int)) := by
  simp only [jsNumber]
  simp [h, hne]

/-- C10: in `amountToFils` the minus sign of a negative decimal string is
applied only to the integer part before scaling: for every input of the
form "-N.fff" (digit string N, three-digit fraction fff) the result is
`-N * 1000 + fff` rather than `-(N * 1000 + fff)`; in particular "-1.250"
parses to -750 fils and "-0.500" parses to +500 fils. -/
theorem negative_sign_integer_part_only :
    (∀ (N fff : List Char), N ≠ [] → N.all (·.isDigit) = true →
      fff.all (·.isDigit) = true → fff.length = 3 →
      amountToFils ('-' :: N ++ '.' :: fff)
        = some (-(digitsToNat N : Int) * 1000 + (digitsToNat fff : Int)))
    ∧ amountToFils ("-1.250".toList) = some (-750)
    ∧ amountToFils ("-0.500".toList) = some 500 := by
  refine ⟨?_, by decide, by decide⟩
  intro N fff hne hN hf hlen
  have hnodot : '.' ∉ '-' :: N := by
    intro hm
    rcases List.mem_cons.mp hm with e | m
    · exact absurd e (by decide)
    · exact isDigit_notMem_dot N hN m
  have hfnodot : '.' ∉ fff := isDigit_notMem_dot fff hf
  have hsplit : splitOnDot ('-' :: N ++ '.' :: fff) = ('-' :: N) :: [fff] := by
    rw [show '-' :: N ++ '.' :: fff = ('-' :: N) ++ '.' :: fff from rfl,
      splitOnDot_append_dot _ _ hnodot, splitOnDot_no_dot fff hfnodot]
  have htake : (fff ++ ['0', '0', '0']).take 3 = fff := by
    rw [← hlen]
    exact List.take_left fff _
  simp only [amountToFils, hsplit, List.headD, List.drop, htake,
    jsNumber_neg_digits N hN hne, jsNumber_digits fff hf]

/-- Witness for `negative_sign_integer_part_only` at N = "1", fff = "250":
the string "-1.250" parses to -750 fils. -/
theorem negative_sign_integer_part_only_witness :
    amountToFils ('-' :: "1".toList ++ '.' :: "250".toList) = some (-750) :=
  (negative_sign_integer_part_only.1 ("1".toList) ("250".toList)
    (by decide) (by decide) (by decide) (by decide)).trans (by decide)

/-- Counterexample to C3 as stated: the round trip
`amountToFils (filsToAmountString m)` is not the identity on all integer
fils values the system produces; at m = -500 the printed string "-0.500"
parses back to +500. -/
theorem roundtrip_fails_neg :
    amountToFils (filsToAmountString (-500)) = some 500
    ∧ amountToFils (filsToAmountString (-500)) ≠ some (-500) := by
  decide

/-- C3 (amended): the round trip parses the printed string back to exactly
the original value for every non-negative fils amount; for a negative
amount n it instead returns n + 2·(|n| mod 1000), so the round trip is the
identity on negative amounts only when they are whole multiples of 1000
and otherwise flips the sign of the sub-unit part. -/
theorem roundtrip_parse_print (n : Int) :
    amountToFils (filsToAmountString n)
      = some (if 0 ≤ n then n else n + 2 * ((n.natAbs % 1000 : Nat) : Int)) := by
  have hi := natDigits_spec (n.natAbs / 1000)
  have hd := natDigits_spec (n.natAbs % 1000)
  have hd3 : (natDigits (n.natAbs % 1000)).length ≤ 3 :=
    natDigits_length_le3 _ (Nat.mod_lt _ (by omega))
  have hpdig : (padStart3 (natDigits (n.natAbs % 1000))).all (·.isDigit) = true :=
    padStart3_all_digits _ hd.2.1
  have hplen : (padStart3 (natDigits (n.natAbs % 1000))).length = 3 :=
    padStart3_length _ hd3
  have hinodot : '.' ∉ natDigits (n.natAbs / 1000) := isDigit_notMem_dot _ hi.2.1
  have hpnodot : '.' ∉ padStart3 (natDigits (n.natAbs % 1000)) :=
    isDigit_notMem_dot _ hpdig
  have htake : (padStart3 (natDigits (n.natAbs % 1000)) ++ ['0', '0', '0']).take 3
      = padStart3 (natDigits (n.natAbs % 1000)) := by
    rw [← hplen]
    exact List.take_left _ _
  have hdval : digitsToNat (padStart3 (natDigits (n.natAbs % 1000)))
      = n.natAbs % 1000 := by
    rw [digitsToNat_padStart3, hd.1]
  by_cases hneg : n < 0
  · have hshape : filsToAmountString n
        = ('-' :: natDigits (n.natAbs / 1000))
          ++ '.' :: padStart3 (natDigits (n.natAbs % 1000)) := by
      simp [filsToAmountString, hneg]
    have hnodot : '.' ∉ '-' :: natDigits (n.natAbs / 1000) := by
      intro hm
      rcases List.mem_cons.mp hm with e | m
      · exact absurd e (by decide)
      · exact hinodot m
    have hsplit : splitOnDot (filsToAmountString n)
        = ('-' :: natDigits (n.natAbs / 1000))
          :: [padStart3 (natDigits (n.natAbs % 1000))] := by
      rw [hshape, splitOnDot_append_dot _ _ hnodot, splitOnDot_no_dot _ hpnodot]
    simp only [amountToFils, hsplit, List.headD, List.drop, htake,
      jsNumber_neg_digits _ hi.2.1 hi.2.2, jsNumber_digits _ hpdig, hdval, hi.1]
    rw [if_neg (by omega : ¬ 0 ≤ n)]
    exact congrArg some (by omega)
  · have hshape : filsToAmountString n
        = natDigits (n.natAbs / 1000)
          ++ '.' :: padStart3 (natDigits (n.natAbs % 1000)) := by
      simp [filsToAmountString, hneg]
    have hsplit : splitOnDot (filsToAmountString n)
        = natDigits (n.natAbs / 1000)
          :: [padStart3 (natDigits (n.natAbs % 1000))] := by
      rw [hshape, splitOnDot_append_dot _ _ hinodot, splitOnDot_no_dot _ hpnodot]
    simp only [amountToFils, hsplit, List.headD, List.drop, htake,
      jsNumber_digits _ hi.2.1, jsNumber_digits _ hpdig, hdval, hi.1]
    rw [if_pos (by omega : 0 ≤ n)]
    exact congrArg some (by omega)

/-- Counterexample to C6 as stated: "1.2.3" is not a valid decimal
numeral, yet `amountToFils` does not fail on it — it silently returns 1200
(the segment after the second dot is dropped). -/
theorem amountToFils_invalid_accepted :
    amountToFils ("1.2.3".toList) = some 1200
    ∧ specValidDecimal ("1.2.3".toList) = false := by
  decide

/-- C6 (amended): `amountToFils` does not signal InvalidAmount on invalid
input: some invalid inputs are silently misparsed ("1.2.3" yields 1200 and
the empty string yields 0, both without any failure) while others yield
NaN; for valid decimals with more than three fractional digits, the extra
digits are truncated, not rounded: the result is the integer part times
1000 plus the value of the first three fractional digits. -/
theorem amountToFils_no_failure_truncation :
    amountToFils ("1.2.3".toList) = some 1200
    ∧ specValidDecimal ("1.2.3".toList) = false
    ∧ amountToFils ("".toList) = some 0
    ∧ specValidDecimal ("".toList) = false
    ∧ (∀ (a b : List Char), a.all (·.isDigit) = true → b.all (·.isDigit) = true →
        3 ≤ b.length →
        amountToFils (a ++ '.' :: b)
          = some ((digitsToNat a : Int) * 1000 + (digitsToNat (b.take 3) : Int))) := by
  refine ⟨by decide, by decide, by decide, by decide, ?_⟩
  intro a b ha hb hlen
  have hanodot : '.' ∉ a := isDigit_notMem_dot a ha
  have hbnodot : '.' ∉ b := isDigit_notMem_dot b hb
  have hsplit : splitOnDot (a ++ '.' :: b) = a :: [b] := by
    rw [splitOnDot_append_dot _ _ hanodot, splitOnDot_no_dot b hbnodot]
  have htake : (b ++ ['0', '0', '0']).take 3 = b.take 3 :=
    List.take_append_of_le_length hlen
  have htdig : (b.take 3).all (·.isDigit) = true := by
    simp only [List.all_eq_true]
    intro c hc
    exact List.all_eq_true.mp hb c (List.take_subset 3 b hc)
  simp only [amountToFils, hsplit, List.headD, List.drop, htake,
    jsNumber_digits a ha, jsNumber_digits _ htdig]

/-- Witness for `amountToFils_no_failure_truncation` at a = "1",
b = "2345": the string "1.2345" parses to 1234 fils, truncating the extra
fractional digit instead of rounding. -/
theorem amountToFils_no_failure_truncation_witness :
    amountToFils ("1.2345".toList) = some 1234 := by
  have he : "1.2345".toList = "1".toList ++ '.' :: "2345".toList := by decide
  rw [he]
  exact (amountToFils_no_failure_truncation.2.2.2.2 ("1".toList) ("2345".toList)
    (by decide) (by decide) (by decide)).trans (by decide)

end BudgetTracker
